import Mathlib

/-!
Verification development for the CausticLexer grammar engine.

Shallow embedding of the Python sources:
* `src/patternlib/buffer_matcher.py` (class `BufferMatcher_DynamicLCNo`)
* `src/grammar/nodes/nested.py` (`ListNode`, `RepeatNode`)
* `src/grammar/nodes/meta.py` (`NotNode`)
* `src/grammar/__init__.py` (`Grammar.compile`, `Grammar.node_stat`, `Grammar.pop_node`)
* `src/lib/nodes/meta.py` (`IndentationNode`)
* `src/src/caustic/lexer/nodes.py` (`StringNode`)

Bytes are modelled as `List Nat`; Python exceptions as explicit error values
(`Except`); in-place mutation as explicit state passing.
-/

namespace Caustic

/-! ## BufferMatcher (src/patternlib/buffer_matcher.py, BufferMatcher_DynamicLCNo)

The matcher holds the byte buffer (`data`) and the current working index
(`pos`).  `lno` and `cno` are computed on demand, exactly as the Python
properties do. -/

/-- State of `BufferMatcher_DynamicLCNo`: the byte buffer and current index. -/
structure BM where
  data : List Nat
  pos : Nat
deriving DecidableEq

/-- A regex match record, as far as the buffer matcher consumes it: only
`m.end()` (the end index of the match within the slice it was run on) is
read by the matcher. -/
structure MatchRec where
  endPos : Nat
deriving DecidableEq

/-- `lno` property: `self.data.count(b'\n', 0, self.pos + 1)` — the number of
newline bytes in `data[0 : pos + 1]` (Python slicing clamps at the end of the
buffer, as `List.take` does). -/
def BM.lno (bm : BM) : Nat :=
  (bm.data.take (bm.pos + 1)).count 10

/-- `bytes.rindex(b'\n', 0, stop)` as used by `cno`: the greatest index
`i < stop` with `data[i]` a newline, `none` when there is no such index
(Python raises `ValueError` there; the caller catches it). -/
def bytesRindex (data : List Nat) (stop : Nat) : Option Nat :=
  (List.range stop).foldl
    (fun acc i => if data.getD i 0 = 10 then some i else acc) none

/-- `cno` property: `line = rindex(b'\n', 0, pos+1)` with the `ValueError`
branch setting `line = 0`, then `pos - line`. -/
def BM.cno (bm : BM) : Nat :=
  bm.pos - (bytesRindex bm.data (bm.pos + 1)).getD 0

/-- `__call__(func)`: run `func` on `buffer[pos:]`; on `None` return `None`
leaving the state alone; otherwise advance `pos` by `m.end() - 1` (the source
literally says `self.pos += m.end()-1`) and return the match.  (Python
integers are unbounded; the truncated `Nat` subtraction here only differs
when `pos + m.end() = 0`, which no claim exercises.) -/
def BM.call (bm : BM) (func : List Nat → Option MatchRec) : Option MatchRec × BM :=
  match func (bm.data.drop bm.pos) with
  | none => (none, bm)
  | some m => (some m, { bm with pos := bm.pos + m.endPos - 1 })

/-- The error raised by `step` when the move crosses the buffer bounds. -/
inductive StepErr
  | indexErr
deriving DecidableEq

/-- `step(amount, allow_breakout)`.  The guard is the source expression
`(not allow_breakout) and (newp < 0) or (newp > len(self.data))`, which by
Python precedence is `((not allow) and newp < 0) or (newp > len)`.  The
returned slice is `buffer[newp:pos]` for negative amounts and
`buffer[pos:newp]` otherwise (negative indices wrap from the end, as Python
slices do; `Int.toNat` clamps below zero just as Python slicing clamps).
The new position is `len + newp` when `newp < 0`, else `newp`. -/
def BM.step (bm : BM) (amount : Int) (allowBreakout : Bool) :
    Except StepErr (List Nat × BM) :=
  let len : Int := bm.data.length
  let newp : Int := (bm.pos : Int) + amount
  if ((!allowBreakout) && decide (newp < 0)) || decide (newp > len) then
    .error .indexErr
  else
    let start : Int := if amount < 0 then newp else (bm.pos : Int)
    let stop : Int := if amount < 0 then (bm.pos : Int) else newp
    let startN : Nat := if start < 0 then (len + start).toNat else start.toNat
    let stopN : Nat := if stop < 0 then (len + stop).toNat else stop.toNat
    let buff := (bm.data.drop startN).take (stopN - startN)
    let newPos : Nat := if newp < 0 then (len + newp).toNat else newp.toNat
    .ok (buff, { bm with pos := newPos })

/-! ## Match engine (src/grammar/nodes/nested.py, meta.py)

The cursor type used by the node matchers carries the buffer and the current
offset.  Line and column are derived from those two (see `BM.lno`/`BM.cno`),
so snapshot/restore of the cursor is exactly a copy of this record.
`save_loc`/`load_loc` live in the buffermatcher module referenced as
`..patterns.buffermatcher`, which is absent from the source tree; they are
modelled from the spec: an opaque snapshot of the cursor state whose restore
exactly reproduces offset, line and column. -/

/-- Cursor state for node matching (spec-modelled snapshot semantics: a
snapshot is the whole record, restoring it is replacing the record). -/
structure GCursor where
  data : List Nat
  pos : Nat
deriving DecidableEq

/-- Successful match values produced by the nodes the claims exercise.
`dictV` is a Python dict as an insertion-ordered association list. -/
inductive Val
  | noneV
  | natV (n : Nat)
  | bytesV (bs : List Nat)
  | tup (vs : List Val)
  | dictV (kvs : List (String × Val))

/-- Result of a node's `match`: the `NOMATCH` sentinel or a value. -/
inductive MRes
  | nomatch
  | val (v : Val)

/-- Python exceptions that escape the match/compile code paths. -/
inductive RunErr
  | nameErr (nm : String)
deriving DecidableEq

/-- A sub-node as the nesting nodes see it: `self.nodes[name](on)` invokes the
sub-node's `__call__`, which mutates the cursor and returns `NOMATCH` or a
value (or lets an exception propagate). -/
abbrev Matcher := GCursor → Except RunErr (MRes × GCursor)

/-- `TrueNode.match` (src/grammar/nodes/meta.py): returns `val` without
consuming anything. -/
def trueMatcher (v : Val) : Matcher := fun c => .ok (.val v, c)

/-- `FalseNode.match` (src/grammar/nodes/meta.py): returns `NOMATCH`
unconditionally. -/
def falseMatcher : Matcher := fun c => .ok (.nomatch, c)

/-- Modelled from the spec: the Literal node's match contract ("compares
`peek(len)` to the literal; on equality, consumes and returns the literal
bytes; otherwise `NO_MATCH`").  The literal node class itself is not among
the grammar-node sources under src/grammar; this stands in as a concrete
sub-node obeying the node match contract. -/
def litMatcher (lit : List Nat) : Matcher := fun c =>
  if (c.data.drop c.pos).take lit.length = lit then
    .ok (.val (.bytesV lit), { c with pos := c.pos + lit.length })
  else
    .ok (.nomatch, c)

/-- `ListNode.ReturnMode` (src/grammar/nodes/nested.py). -/
inductive LMode
  | seq
  | dict
  | unpack
deriving DecidableEq

/-- The loop body of `ListNode.match`: run the sub-nodes in declared order,
collecting their match results.  When a sub-node returns `NOMATCH` the source
executes `on.load_loc(orig_pas)` — but the name `orig_pas` is unbound (the
snapshot was stored as `orig_pos`), so Python raises `NameError` at that
point instead of restoring and returning `NOMATCH`. -/
def listGo (subs : List Matcher) (c : GCursor) (acc : List Val) :
    Except RunErr (List Val × GCursor) :=
  match subs with
  | [] => .ok (acc.reverse, c)
  | m :: rest =>
    match m c with
    | .error e => .error e
    | .ok (.nomatch, _) => .error (.nameErr "orig_pas")
    | .ok (.val v, c1) => listGo rest c1 (v :: acc)

/-- One assignment into a Python dict: an existing key keeps its position
and takes the new value, a new key is appended. -/
def dictAssign (kvs : List (String × Val)) (k : String) (v : Val) :
    List (String × Val) :=
  if kvs.any (fun p => p.1 == k) then
    kvs.map (fun p => if p.1 == k then (k, v) else p)
  else kvs ++ [(k, v)]

/-- `dict(zip(names, vals))`: pair the two lists up to the shorter one,
assigning left to right (so a repeated name keeps its first position with
its last value, as the `ListNode.DICT` docstring notes). -/
def dictZip : List String → List Val → List (String × Val) → List (String × Val)
  | k :: ks, v :: vs, acc => dictZip ks vs (dictAssign acc k v)
  | _, _, acc => acc

/-- `ListNode.match`: snapshot (`orig_pos = on.save_loc()`), run the
sub-nodes in order, then shape the result per return mode.  `SEQ` returns the
tuple of match results, `DICT` returns `dict(zip(self.order, matches))`; the
`UNPACK` branches are reached only on success and the claims do not exercise
them, so the shaping for `UNPACK` keeps the empty/singleton cases from the
source and flags the remaining cases (which in the source would run
`dict.update` / `sum`) as an opaque tuple. -/
def listMatch (subs : List (String × Matcher)) (mode : LMode) (c : GCursor) :
    Except RunErr (MRes × GCursor) :=
  let _origPos := c
  match listGo (subs.map (·.2)) c [] with
  | .error e => .error e
  | .ok (ms, c1) =>
    match mode with
    | .seq => .ok (.val (.tup ms), c1)
    | .dict => .ok (.val (.dictV (dictZip (subs.map (·.1)) ms [])), c1)
    | .unpack =>
      match ms with
      | [] => .ok (.val .noneV, c1)
      | [v] => .ok (.val v, c1)
      | vs => .ok (.val (.tup vs), c1)

/-- `RepeatNode.ReturnMode` (src/grammar/nodes/nested.py). -/
inductive RMode
  | seq
  | first
  | last
  | count
deriving DecidableEq

/-- The `min` phase of `RepeatNode.match`: `for _ in range(self.min)`, append
each sub-match result; a `NOMATCH` aborts the phase (`none` — the caller then
restores the snapshot and returns `NOMATCH`). -/
def repeatMin (sub : Matcher) : Nat → GCursor → List Val →
    Except RunErr (Option (List Val × GCursor))
  | 0, c, acc => .ok (some (acc.reverse, c))
  | k + 1, c, acc =>
    match sub c with
    | .error e => .error e
    | .ok (.nomatch, _) => .ok none
    | .ok (.val v, c1) => repeatMin sub k c1 (v :: acc)

/-- The greedy phase of `RepeatNode.match`: `for _ in range(self.min,
self.max)` runs the sub-node until it fails or the bound is reached.  Note
the source never appends these match results to its result list — it only moves
the cursor. -/
def repeatGreedy (sub : Matcher) : Nat → GCursor → Except RunErr GCursor
  | 0, c => .ok c
  | k + 1, c =>
    match sub c with
    | .error e => .error e
    | .ok (.nomatch, c1) => .ok c1
    | .ok (.val _, c1) => repeatGreedy sub k c1

/-- `RepeatNode.match` for a bounded `max` (the `max is None` branch iterates
`itertools.repeat(None)` and is not reached by the claims; `setup` rejects
`min >= max`, and `range(min, max)` gives `mx - mn` greedy iterations, which
truncated `Nat` subtraction reproduces).  The return shaping reads only the
result list built in the `min` phase, exactly as the source does. -/
def repeatMatch (sub : Matcher) (mn mx : Nat) (mode : RMode) (c : GCursor) :
    Except RunErr (MRes × GCursor) :=
  let save := c
  match repeatMin sub mn c [] with
  | .error e => .error e
  | .ok none => .ok (.nomatch, save)
  | .ok (some (ms, c1)) =>
    match repeatGreedy sub (mx - mn) c1 with
    | .error e => .error e
    | .ok c2 =>
      match mode with
      | .seq => .ok (.val (.tup ms), c2)
      | .first => .ok (.val (ms.headD .noneV), c2)
      | .last => .ok (.val (ms.getLastD .noneV), c2)
      | .count => .ok (.val (.natV ms.length), c2)

/-! ## IndentationNode (src/lib/nodes/meta.py)

The node's state is the deque `indents`, initialised to `deque((0,))`.  The
deque is appended to and popped from the right and indexed as `[-1]`; the
model keeps the TOP at the HEAD of the list, so `indents[-1]` is `head`,
`append` is cons and `pop` drops the head.  A match invocation reads the
optional newline-plus-indent run via `INDENT_PATT`; `count` is the number of
space/tab bytes of the run (0 when the regex does not match), so a match
invocation is a function of that `count`. -/

/-- Result of `IndentationNode.match`: the `GrammarMark` sentinels, the
`(DEDENT, k)` pair, or the `IndentationError` the dedent path raises. -/
inductive IndentRes
  | indent
  | noChange
  | dedent (k : Nat)
  | indentErr
deriving DecidableEq

/-- The dedent loop
`while self.indents and (count < self.indents[-1]): pop; dedents += 1`:
returns the remaining stack and the number of pops. -/
def dedentPop (count : Nat) : List Nat → List Nat × Nat
  | [] => ([], 0)
  | t :: rest =>
    if count < t then
      ((dedentPop count rest).1, (dedentPop count rest).2 + 1)
    else
      (t :: rest, 0)

/-- One invocation of `IndentationNode.match` as a function of the observed
indent `count`, returning the result and the new stack.  The stack is never
empty in reachable states; `headD 0` models `indents[-1]` there.  On the
`count != self.indents[-1]` check after popping, the source raises
`IndentationError`, leaving the popped stack in the node. -/
def indentStep (count : Nat) (st : List Nat) : IndentRes × List Nat :=
  let top := st.headD 0
  if top < count then (.indent, count :: st)
  else if count = top then (.noChange, st)
  else
    let popped := dedentPop count st
    if count ≠ popped.1.headD 0 then (.indentErr, popped.1)
    else (.dedent popped.2, popped.1)

/-- A sequence of match invocations starting from the initial stack
`deque((0,))`, keeping only the evolving stack. -/
def runIndent (counts : List Nat) : List Nat :=
  counts.foldl (fun st n => (indentStep n st).2) [0]

/-- The spec's indentation-stack invariant: non-empty, strictly increasing
from bottom to top (top is the head here), 0 at the bottom. -/
def stackInv (st : List Nat) : Prop :=
  st ≠ [] ∧ List.Chain' (· > ·) st ∧ st.getLast? = some 0

/-! ## Grammar and compile scheduler (src/grammar/__init__.py)

Node records keep what `Grammar.compile` and the per-kind `compile` methods
read and write: the kind-specific configuration and the `failure` field.
The per-kind `compile` bodies are those of `PatternNode` (flat.py),
`UnionNode`/`ListNode`/`RepeatNode` (nested.py) and `NotNode` (meta.py);
`TrueNode`/`FalseNode` inherit the no-op base `compile`.  These classes all
derive from the `GrammarNode` defined in src/grammar/nodes/__init__.py, a
slots-only hierarchy (every class in the MRO sets `__slots__`) that defines
no `compile_order_hint` slot, class attribute or property anywhere — which
matters to `Grammar.compile`, whose scheduling loop sorts the candidates
with `operator.attrgetter('compile_order_hint')`. -/

/-- Compile-failure values stored in a node's `failure` field. -/
inductive CompErr
  | neverCompiled
  | depMissing (nm : String)
  | depNotReady (nm : String)
  | patternIncomplete
  | other
deriving DecidableEq

/-- Python exceptions escaping grammar operations. -/
inductive PyErr
  | nameErr (nm : String)
  | attrErr (nm : String)
  | nodeMissing (nm : String)
deriving DecidableEq

/-- The closed set of node kinds with their compile-relevant configuration.
`patternK` carries the (static, during one compile run) completeness answer
of the pattern registry for the node's pattern. -/
inductive NKind
  | trueK
  | falseK
  | patternK (complete : Bool)
  | unionK (subs : List String)
  | listK (subs : List String)
  | repeatK (sub : Option String)
  | notK (sub : String)
deriving DecidableEq

/-- A grammar node as the grammar operations see it: its kind-specific
configuration and its `failure` field. -/
structure GNode where
  kind : NKind
  failure : Option CompErr
deriving DecidableEq

/-- The grammar's name-to-node mapping (a Python dict: insertion-ordered,
unique keys). -/
abbrev GState := List (String × GNode)

/-- `name in self.bound.nodes` / `self.bound.nodes[name]` lookup. -/
def findNode (g : GState) (nm : String) : Option GNode :=
  (g.find? (fun p => p.1 == nm)).map (·.2)

/-- The sub-node loop shared by `UnionNode.compile` and `ListNode.compile`:
first missing sub-node gives a dependency-missing failure, first sub-node
with its own `failure` set gives a dependency-not-ready failure (chained to
it), otherwise the node ends with `failure = None`. -/
def checkSubs (g : GState) : List String → Option CompErr
  | [] => none
  | nm :: rest =>
    match findNode g nm with
    | none => some (.depMissing nm)
    | some sub => if sub.failure.isSome then some (.depNotReady nm) else checkSubs g rest

/-- One node's `compile()` given the current grammar state and the node's
current `failure`; the result is the node's `failure` after the call, or the
Python exception the call raises.
* `trueK`/`falseK`: the base `compile` is a no-op, `failure` is unchanged.
* `patternK`: `is_complete` gates compilation (flat.py).
* `unionK`/`listK`: the `checkSubs` loop (nested.py), with early returns.
* `repeatK none`: `if self.node_name is None: return` leaves `failure` alone.
* `repeatK (some nm)`: a missing sub-node stores a dependency-missing
  failure and returns; otherwise the dependency-not-ready branch stores its
  failure but has no `return`, so the trailing `self.failure = None`
  overwrites it — the node always ends ready when the sub-node exists.
* `notK`: both message f-strings reference the unbound name `node`, so a
  missing sub-node raises `NameError` in the dependency-missing branch, and
  an existing sub-node whose `failure` is set raises `NameError` in the
  dependency-not-ready branch; only an existing, ready sub-node reaches the
  final `self.failure = None`. -/
def nodeCompile (g : GState) (prev : Option CompErr) : NKind → Except PyErr (Option CompErr)
  | .trueK => .ok prev
  | .falseK => .ok prev
  | .patternK complete => .ok (if complete then none else some .patternIncomplete)
  | .unionK subs => .ok (checkSubs g subs)
  | .listK subs => .ok (checkSubs g subs)
  | .repeatK none => .ok prev
  | .repeatK (some nm) =>
    match findNode g nm with
    | none => .ok (some (.depMissing nm))
    | some _ => .ok none
  | .notK nm =>
    match findNode g nm with
    | none => .error (.nameErr "node")
    | some sub => if sub.failure.isSome then .error (.nameErr "node") else .ok none

/-- The candidate names of `Grammar.compile(nodes=None, needed)`: all node
names, filtered to the currently-failed ones when `needed`. -/
def compileCandidates (g : GState) (needed : Bool) : List String :=
  let names := g.map (·.1)
  if needed then
    names.filter (fun nm => (((findNode g nm).map (·.failure)).getD none).isSome)
  else names

/-- `Grammar.compile(nodes=None, needed)`: after building the candidate set
(which only reads `failure` fields), the `while` loop's first action is
`sorted(map(self.nodes.__getitem__, nodes - successes),
key=operator.attrgetter('compile_order_hint'))`.  The node classes have no
`compile_order_hint` attribute (see the section comment), so with at least
one candidate the `attrgetter` raises `AttributeError` at the first node —
before any `node.compile()` runs and before any `failure` field is written;
with no candidates the single empty iteration exits the loop and the call
returns the empty residual set normally.  Either way the grammar state is
returned unchanged, paired with the exception if one was raised. -/
def grammarCompile (g : GState) (needed : Bool) : GState × Option PyErr :=
  (g, match compileCandidates g needed with
      | [] => none
      | _ :: _ => some (.attrErr "compile_order_hint"))

/-- `Grammar.node_stat()`: the names with `failure` unset and the names with
`failure` set (in mapping order; the source returns them as frozensets). -/
def nodeStat (g : GState) : List String × List String :=
  (g.filterMap (fun p => if p.2.failure.isNone then some p.1 else none),
   g.filterMap (fun p => if p.2.failure.isSome then some p.1 else none))

/-- `Grammar.pop_node(node, ignore_missing, compile)`: resolve the name; when
absent, return `None` under `ignore_missing`, else raise `NodeMissingError`
(no compile is scheduled and the mapping is untouched).  When present the
source runs `node = self.pop(name)`, but `Grammar` (a `__slots__` class with
no `pop` attribute) has no such method, so an `AttributeError` is raised and
the mapping is left unchanged. -/
def popNode (g : GState) (nm : String) (ignoreMissing : Bool) (_compile : Bool) :
    GState × Except PyErr (Option GNode) :=
  match findNode g nm with
  | none =>
    if ignoreMissing then (g, .ok none)
    else (g, .error (.nodeMissing nm))
  | some _ => (g, .error (.attrErr "pop"))

/-! ## StringNode (src/src/caustic/lexer/nodes.py) -/

/-- The state a constructed `StringNode` holds. -/
structure StringNodeRec where
  string : List Nat
deriving DecidableEq

/-- `StringNode.__init__(string)`: store the bytes, then raise `ValueError`
when they are empty (`if not self.string`), so construction only succeeds
with non-empty literal bytes. -/
def mkStringNode (string : List Nat) : Except String StringNodeRec :=
  let node : StringNodeRec := { string := string }
  if node.string.isEmpty then .error "Cannot use an empty string"
  else .ok node

/-! ## Supporting lemmas -/

/-- Counting newlines in one more byte of prefix adds an indicator for the
byte at that index (absent indices read as 0 via `getD`, never a newline). -/
theorem count_take_succ (data : List Nat) :
    ∀ n, (data.take (n + 1)).count 10
      = (data.take n).count 10 + (if data.getD n 0 = 10 then 1 else 0) := by
  induction data with
  | nil => intro n; simp
  | cons a as ih =>
    intro n
    cases n with
    | zero => simp [List.count_cons]
    | succ m =>
      simp only [List.take_succ_cons, List.count_cons, ih m, List.getD_cons_succ]
      omega

/-- Peeling the last index off the `rindex` scan. -/
theorem bytesRindex_succ (data : List Nat) (n : Nat) :
    bytesRindex data (n + 1)
      = if data.getD n 0 = 10 then some n else bytesRindex data n := by
  simp only [bytesRindex, List.range_succ, List.foldl_append, List.foldl_cons,
    List.foldl_nil]

/-- The `rindex`-or-0 value used by `cno` is `Nat.findGreatest` of the
newline predicate over the indices up to the position. -/
theorem bytesRindex_getD (data : List Nat) :
    ∀ n, (bytesRindex data (n + 1)).getD 0
      = Nat.findGreatest (fun i => data.getD i 0 = 10) n := by
  intro n
  induction n with
  | zero =>
    rw [bytesRindex_succ]
    split_ifs with h
    · rfl
    · rfl
  | succ m ih =>
    rw [bytesRindex_succ]
    simp only [Nat.findGreatest_succ]
    split_ifs with h
    · rfl
    · exact ih

/-- The dedent loop preserves the indentation-stack invariant: it pops only
strict majorants of `count`, and the bottom 0 is never a strict majorant of a
`Nat`, so the stack stays non-empty with 0 at the bottom. -/
theorem stackInv_dedentPop (count : Nat) :
    ∀ st, stackInv st → stackInv (dedentPop count st).1 := by
  intro st
  induction st with
  | nil => intro h; exact absurd rfl h.1
  | cons t rest ih =>
    intro h
    by_cases hct : count < t
    · cases rest with
      | nil =>
        have ht : t = 0 := by
          have hl := h.2.2
          simpa using hl
        omega
      | cons r rs =>
        have hinv : stackInv (r :: rs) := by
          refine ⟨by simp, h.2.1.tail, ?_⟩
          have hl := h.2.2
          rwa [List.getLast?_cons_cons] at hl
        have hres := ih hinv
        simpa [dedentPop, hct] using hres
    · simpa [dedentPop, hct] using h

/-- One invocation of `IndentationNode.match` preserves the stack invariant,
whatever it returns (including the `IndentationError` path, which leaves the
popped stack behind). -/
theorem stackInv_indentStep (count : Nat) (st : List Nat) (h : stackInv st) :
    stackInv (indentStep count st).2 := by
  obtain ⟨hne, hchain, hlast⟩ := h
  cases st with
  | nil => exact absurd rfl hne
  | cons t rest =>
    simp only [indentStep, List.headD_cons]
    by_cases h1 : t < count
    · simp only [if_pos h1]
      refine ⟨by simp, List.chain'_cons.mpr ⟨h1, hchain⟩, ?_⟩
      rw [List.getLast?_cons_cons]
      exact hlast
    · simp only [if_neg h1]
      by_cases h2 : count = t
      · simp only [if_pos h2]
        exact ⟨hne, hchain, hlast⟩
      · simp only [if_neg h2]
        have hpop := stackInv_dedentPop count (t :: rest) ⟨hne, hchain, hlast⟩
        split_ifs <;> exact hpop

/-- Folding invocations from any invariant-satisfying stack keeps the
invariant. -/
theorem stackInv_foldl :
    ∀ (counts : List Nat) (st : List Nat), stackInv st →
      stackInv (counts.foldl (fun s n => (indentStep n s).2) st) := by
  intro counts
  induction counts with
  | nil => intro st h; exact h
  | cons n ns ih =>
    intro st h
    exact ih _ (stackInv_indentStep n st h)

/-! ## Concrete instances used by individual claims -/

/-- A regex-match function standing for `re.compile(rb"a").match`: it matches
exactly the single byte `a` (0x61) at the start of the slice, with
`m.end() = 1`. -/
def matchByteA : List Nat → Option MatchRec := fun s =>
  match s with
  | 97 :: _ => some { endPos := 1 }
  | _ => none

/-- Grammar state for claim C4: the sub-node `s` exists but has its own
`failure` set. -/
def c4Grammar : GState :=
  [("s", { kind := .trueK, failure := some .other })]

/-- Grammar state for claim C9: a single node named `a`. -/
def c9Grammar : GState :=
  [("a", { kind := .trueK, failure := none })]

/-! ## Claims -/

/-- C1: the claim says a Sequence (`ListNode`) that fails on a sub-node
restores its snapshot before returning `NO_MATCH`.  Evaluating
`ListNode.match` on a sequence whose first sub-node (an Always node) matches
and whose second (a Never node) does not: the backtrack line reads the
unbound name `orig_pas`, so the call raises `NameError` instead of restoring
the cursor and returning `NO_MATCH`. -/
theorem c1_sequence_backtrack_raises_nameerror :
    listMatch [("t", trueMatcher .noneV), ("f", falseMatcher)] .seq ⟨[], 0⟩
      = .error (.nameErr "orig_pas") := by
  rfl

/-- C2: the claim says `apply(f)` advances the offset by exactly the length
of the matched bytes.  With buffer `b"ab"`, offset 0 and `f` the match
function of the regex `a` (match length 1, `m.end() = 1`), the source
executes `self.pos += m.end()-1` and the offset stays 0 instead of becoming
1. -/
theorem c2_apply_advances_by_end_minus_one :
    BM.call ⟨[97, 98], 0⟩ matchByteA = (some ⟨1⟩, ⟨[97, 98], 0⟩) := by
  rfl

/-- C3: the claim (and the spec's worked example) says Repeat min 2, max 4,
element `"x"` on `b"xxxxx"` returns 4 in `COUNT` mode with the cursor at
offset 4.  The greedy loop consumes up to the bound (cursor 4) but never
appends its matches, so `COUNT` returns `len(matches) = 2`. -/
theorem c3_repeat_count_returns_min_only :
    repeatMatch (litMatcher [120]) 2 4 .count ⟨[120, 120, 120, 120, 120], 0⟩
      = .ok (.val (.natV 2), ⟨[120, 120, 120, 120, 120], 4⟩) := by
  rfl

/-- C4: the claim says a nesting node's `failure` is non-none after `compile`
whenever a sub-node is missing or itself failed.  For `RepeatNode.compile`
with an existing-but-failed sub-node `s`, the dependency-not-ready failure is
overwritten by the trailing `self.failure = None`, so the node ends ready;
for `NotNode.compile` with a missing sub-node, the error message references
the unbound name `node` and the call raises `NameError` instead of storing a
dependency-missing failure. -/
theorem c4_nesting_compile_failure_lost :
    nodeCompile c4Grammar (some .neverCompiled) (.repeatK (some "s")) = .ok none
      ∧ nodeCompile c4Grammar (some .neverCompiled) (.notK "ghost")
          = .error (.nameErr "node") := by
  exact ⟨rfl, rfl⟩

/-- C5: for every grammar state, running `compile(needed=true)` twice in
succession yields the same ready/failed partition (as reported by
`node_stat`) as running it once — the second run neither makes a ready node
failed nor a failed node ready.  The property holds degenerately, because
`Grammar.compile` never mutates any node: with at least one failed
candidate, each run raises `AttributeError` inside
`sorted(key=operator.attrgetter('compile_order_hint'))` before any
`node.compile()` executes (the slots-only node classes define no
`compile_order_hint`); with none, each run falls straight through the loop.
The second conjunct is full idempotence of the call: the same final state
and the same raised exception. -/
theorem c5_compile_needed_idempotent (g : GState) :
    nodeStat (grammarCompile (grammarCompile g true).1 true).1
        = nodeStat (grammarCompile g true).1
      ∧ grammarCompile (grammarCompile g true).1 true = grammarCompile g true := by
  exact ⟨rfl, rfl⟩

/-- C8: the claim says that with the `permit_overrun` flag set, `step` raises
no out-of-range error.  With buffer `b"a"` (length 1), position 0, and
`step(2, allow_breakout=True)`, the mis-parenthesised guard
`(not allow) and (newp < 0) or (newp > len)` still raises `IndexError`. -/
theorem c8_step_overrun_raises_despite_flag :
    BM.step ⟨[97], 0⟩ 2 true = .error .indexErr := by
  rfl

/-- C9: the claim says `pop_node(name)` removes and returns the named node
when present.  On a grammar holding node `a`, the present branch runs
`self.pop(name)` — `Grammar` has no attribute `pop` — so an `AttributeError`
is raised and the node is not removed; the missing branch does raise the
node-missing error with the grammar unchanged, as claimed. -/
theorem c9_pop_node_present_raises_attributeerror :
    popNode c9Grammar "a" false true = (c9Grammar, .error (.attrErr "pop"))
      ∧ popNode c9Grammar "b" false true = (c9Grammar, .error (.nodeMissing "b")) := by
  exact ⟨rfl, rfl⟩

/-- C10: constructing a `StringNode` with empty bytes raises `ValueError`,
and any successfully constructed node holds exactly the given non-empty
bytes. -/
theorem c10_stringnode_nonempty :
    (∀ s n, mkStringNode s = .ok n → n.string ≠ [])
      ∧ mkStringNode [] = .error "Cannot use an empty string" := by
  constructor
  · intro s n h
    by_cases hs : s.isEmpty
    · simp [mkStringNode, hs] at h
    · simp [mkStringNode, hs] at h
      subst h
      simpa [List.isEmpty_iff] using hs
  · rfl

/-- Witness for C10: the node built from `b"x"` holds non-empty bytes. -/
theorem c10_stringnode_nonempty_witness :
    ({ string := [120] } : StringNodeRec).string ≠ [] :=
  c10_stringnode_nonempty.1 [120] { string := [120] } rfl

/-- C6 counterexample: the claim's formulas fail on the code.  On buffer
`b"a"` at offset 0 the claim predicts line `0 + 1 = 1` (newlines strictly
before the offset, plus one) but `lno` reports 0; on buffer `b"a\n"` at
offset 1 no newline strictly precedes the offset, so the claim predicts
column = offset = 1, but `cno` also sees the newline AT the offset and
reports 0. -/
theorem c6_claim_counterexample :
    ¬ (BM.lno ⟨[97], 0⟩ = (([97] : List Nat).take 0).count 10 + 1)
      ∧ ¬ (BM.cno ⟨[97, 10], 1⟩ = 1) := by
  exact ⟨by decide, by decide⟩

/-- C6 (amended): the reported line number equals the number of newline
bytes in `buffer[0 .. offset]` INCLUSIVE of the byte at the offset and with
no `+ 1` (equivalently, the count strictly before the offset plus one only
when the byte at the offset is itself a newline), and the reported column
equals the offset minus the greatest index `i ≤ offset` holding a newline
(minus 0 when there is none). -/
theorem c6_line_column_formulas (data : List Nat) (pos : Nat) :
    BM.lno ⟨data, pos⟩
        = (data.take pos).count 10 + (if data.getD pos 0 = 10 then 1 else 0)
      ∧ BM.cno ⟨data, pos⟩
        = pos - Nat.findGreatest (fun i => data.getD i 0 = 10) pos := by
  constructor
  · simpa [BM.lno] using count_take_succ data pos
  · simp only [BM.cno, bytesRindex_getD]

/-- C7: over every sequence of `IndentationNode.match` invocations starting
from the initial state `deque((0,))`, the indentation stack stays non-empty,
strictly increasing from bottom to top, with 0 at the bottom — after every
invocation, whatever it returned (including the `IndentationError` path). -/
theorem c7_indent_stack_invariant (counts : List Nat) :
    stackInv (runIndent counts) := by
  have h0 : stackInv [0] := ⟨by simp, List.chain'_singleton 0, rfl⟩
  exact stackInv_foldl counts [0] h0

end Caustic
